import Mathlib

/-!
Formal model of the Route Memory matching engine and Navigator of this
repository (`inference/app.py`), shallowly embedded in Lean 4.

Conventions of the embedding:
* numpy float arrays become `List ℚ`; all arithmetic is exact rational
  arithmetic, reading the numeric constants of the source (`0.1`, `0.90`,
  `0.30`, `0.99`, `1.1`, `1.4826`, `1e-6`) as exact decimals.
* `np.std` is a square root, which is irrational in general; it is only ever
  used in the comparison `distances / mu < std`, so the model carries the
  variance (the square of the std) and performs that comparison exactly with
  `ltSqrtQ` below.
* `softmax` is a transcendental function (it uses `exp`); `match` only ever
  consumes its output vector, so the model takes the selections vector
  (the softmax output over `query . keys^T`) as an input of `match`.
  The `keys` field is still stored by `reset` for fidelity.
* numpy fancy-indexed in-place addition `a[idx] += v` reads the old values
  and writes them back, so a duplicated index receives the increment once;
  `fancyAdd` below implements exactly that semantics.
* out-of-range indexing (a crash in numpy) is modelled by `List.getD _ _ 0`
  for reads, `List.set` (a no-op out of range) for writes and `List.get?`
  for the destination payload; the theorems carry the well-formedness
  hypotheses that make these cases unreachable.
-/

/-- Dot product of two vectors (`np.dot` on equal-length 1-d arrays). -/
def dotQ (xs ys : List ℚ) : ℚ := (List.zipWith (fun a b => a * b) xs ys).sum

/-- Arithmetic mean (`np.mean`). For the empty list the rational division by
zero returns 0; the live code never takes statistics of an empty array. -/
def meanQ (xs : List ℚ) : ℚ := xs.sum / (xs.length : ℚ)

/-- Population variance, the square of `np.std` (`ddof = 0`). -/
def varQ (xs : List ℚ) : ℚ := meanQ (xs.map (fun x => (x - meanQ xs) ^ 2))

/-- Ascending sort, as `np.percentile` sorts its input. -/
def sortQ (xs : List ℚ) : List ℚ := List.insertionSort (fun a b => a ≤ b) xs

/-- Floor of a non-negative rational as a natural number. -/
def floorNatQ (q : ℚ) : ℕ := (⌊q⌋).toNat

/-- Linear-interpolation percentile (`np.percentile`, default method): with
`s` the sorted data and `h = (n-1)·q/100`, the result is
`s[⌊h⌋] + (h - ⌊h⌋)·(s[⌊h⌋+1] - s[⌊h⌋])`. The peculiar out-of-range read at
`q = 100` is harmless because its coefficient `h - ⌊h⌋` is 0 there. -/
def percentileQ (xs : List ℚ) (q : ℚ) : ℚ :=
  let s := sortQ xs
  let h : ℚ := ((s.length - 1 : ℕ) : ℚ) * q / 100
  let i : ℕ := floorNatQ h
  s.getD i 0 + (h - (i : ℚ)) * (s.getD (i + 1) 0 - s.getD i 0)

/-- Median (`np.median`), the 50th linear-interpolation percentile. -/
def medianQ (xs : List ℚ) : ℚ := percentileQ xs 50

/-- Median absolute deviation as `scipy.stats.median_absolute_deviation`
computes it: `1.4826 * median |x - median x|` (default scale). -/
def madQ (xs : List ℚ) : ℚ :=
  (14826 / 10000 : ℚ) * medianQ (xs.map (fun x => |x - medianQ xs|))

/-- Exact test for `x < Real.sqrt v` when `v ≥ 0`: true iff `x < 0` or
`x^2 < v`. This is how the model evaluates `distances / mu < std`. -/
def ltSqrtQ (x v : ℚ) : Bool := decide (x < 0) || decide (x * x < v)

/-- The statistics of `RouteMemory._outlier_stats`: mean plus epsilon, the
square of the standard deviation, the interquartile lower-outlier bound
`q25 - 1.5·(q75 - q25)`, and the median absolute deviation. -/
structure OutlierStats where
  mu : ℚ
  variance : ℚ
  lqr : ℚ
  mad : ℚ

/-- `RouteMemory._outlier_stats(distances)` with `eps = 1e-6`. -/
def outlierStats (ds : List ℚ) : OutlierStats :=
  { mu := meanQ ds + 1 / 1000000
    variance := varQ ds
    lqr := percentileQ ds 25 - (3 / 2) * (percentileQ ds 75 - percentileQ ds 25)
    mad := madQ ds }

/-- Per-image outcome of the first outlier test `distances / mu < std`. -/
def mask1 (ds : List ℚ) : List Bool :=
  ds.map (fun d => ltSqrtQ (d / (outlierStats ds).mu) (outlierStats ds).variance)

/-- Per-image outcome of the second outlier test `distances < lqr`. -/
def mask2 (ds : List ℚ) : List Bool :=
  ds.map (fun d => decide (d < (outlierStats ds).lqr))

/-- Per-image outcome of the third outlier test `distances < mad`. -/
def mask3 (ds : List ℚ) : List Bool :=
  ds.map (fun d => decide (d < (outlierStats ds).mad))

/-- Boolean-mask indexing `code_points[mask]`: the waypoint ids of the
images at which the mask is true, in image order, duplicates kept. -/
def selectIdx (cps : List ℕ) (mask : List Bool) : List ℕ :=
  (List.zip cps mask).filterMap (fun p => if p.2 then some p.1 else none)

/-- Worker for `fancyAdd`: walks the evidence list with a running index. -/
def bumpAll (idxs : List ℕ) (v : ℚ) : ℕ → List ℚ → List ℚ
  | _, [] => []
  | i, e :: rest => (if i ∈ idxs then e + v else e) :: bumpAll idxs v (i + 1) rest

/-- numpy fancy-indexed in-place addition `a[idxs] += v`: every index that
occurs in `idxs` receives the increment exactly once, however many times it
occurs, because numpy reads the old values and writes them all back. -/
def fancyAdd (ev : List ℚ) (idxs : List ℕ) (v : ℚ) : List ℚ := bumpAll idxs v 0 ev

/-- The three outlier-evidence additions of `match_d1`
(`evidence[code_points[mask_k]] += .1` for the three masks, in order). -/
def evidenceAfterOutliers (ev : List ℚ) (cps : List ℕ) (ds : List ℚ) : List ℚ :=
  fancyAdd
    (fancyAdd
      (fancyAdd ev (selectIdx cps (mask1 ds)) (1 / 10))
      (selectIdx cps (mask2 ds)) (1 / 10))
    (selectIdx cps (mask3 ds)) (1 / 10)

/-- `np.clip(x, -1, .30)` on one element. -/
def clipQ (x : ℚ) : ℚ := min (max x (-1)) (3 / 10)

/-- The decay-and-clip step `evidence *= .90; evidence = clip(evidence, -1, .30)`. -/
def decayClip (ev : List ℚ) : List ℚ := ev.map (fun x => clipQ (x * (9 / 10)))

/-- Worker for `argmaxQ`: scans the tail keeping the best (index, value)
pair, updating only on a strictly larger value, as `np.argmax` keeps the
first maximum. -/
def amaxAux : List ℚ → ℕ × ℚ → ℕ → ℕ × ℚ
  | [], best, _ => best
  | x :: rest, best, i => amaxAux rest (if best.2 < x then (i, x) else best) (i + 1)

/-- `np.argmax`: index of the first maximal element (0 on the empty list,
where numpy raises instead). -/
def argmaxQ : List ℚ → ℕ
  | [] => 0
  | x :: rest => (amaxAux rest (0, x) 1).1

/-- Worker for `argminQ`, dual to `amaxAux`. -/
def aminAux : List ℚ → ℕ × ℚ → ℕ → ℕ × ℚ
  | [], best, _ => best
  | x :: rest, best, i => aminAux rest (if x < best.2 then (i, x) else best) (i + 1)

/-- `np.argmin`: index of the first minimal element. -/
def argminQ : List ℚ → ℕ
  | [] => 0
  | x :: rest => (aminAux rest (0, x) 1).1

/-- The distance vector `1 - np.dot(code_book, features.T)` of `match_d1`. -/
def distancesQ (cb : List (List ℚ)) (features : List ℚ) : List ℚ :=
  cb.map (fun c => 1 - dotQ c features)

/-- The destination image index of `match_d1`: mask the corpus to the images
whose waypoint id is `(navigation_point + 1) % num_points` when a waypoint is
confirmed (all images otherwise), zero the selections outside the mask with
`np.where`, and take the argmax. -/
def destIndex (num_points : ℕ) (cps : List ℕ) (nav : Option ℕ) (selections : List ℚ) : ℕ :=
  let mask : List Bool :=
    match nav with
    | none => List.replicate cps.length true
    | some c => cps.map (fun w => decide (w = (c + 1) % num_points))
  argmaxQ (List.zipWith (fun (b : Bool) s => if b then s else 0) mask selections)

/-- The evidence vector of `match_d1` at the match-decision step: outlier
additions, decay and clip, then the unclipped bonus
`evidence[code_points[d_iid]] += d_prob * s_prob * 1.1`. -/
def preDecisionEvidence (cps : List ℕ) (cb : List (List ℚ))
    (ev : List ℚ) (features selections : List ℚ) : List ℚ :=
  let ds := distancesQ cb features
  let e2 := decayClip (evidenceAfterOutliers ev cps ds)
  let d_iid := argminQ ds
  let b := cps.getD d_iid 0
  e2.set b (e2.getD b 0 +
    (1 - ds.getD d_iid 0) * selections.getD (argmaxQ selections) 0 * (11 / 10))

/-- The result tuple of `RouteMemory.match_d1` together with the two pieces
of memory state it mutates (the evidence vector and the confirmed point). -/
structure MatchResult (V : Type) where
  matched : Option ℕ
  image : ℕ
  confidence : ℚ
  destination : Option V
  evidence : List ℚ
  nav_point : Option ℕ

/-- The body of `RouteMemory.match_d1` on unpacked state: `num_points` the
waypoint count, `cps` the image-to-waypoint map, `cb` the corpus, `vs` the
destination payloads, `ev` the evidence vector, `nav` the confirmed point,
`features` the embedding and `selections` the softmax attention vector. -/
def matchStep (num_points : ℕ) (cps : List ℕ) (cb : List (List ℚ)) {V : Type}
    (vs : List V) (ev : List ℚ) (nav : Option ℕ)
    (features selections : List ℚ) : MatchResult V :=
  let ds := distancesQ cb features
  let d_iid := argminQ ds
  let e3 := preDecisionEvidence cps cb ev features selections
  let s_iid := destIndex num_points cps nav selections
  let dest := vs.get? s_iid
  let p := argmaxQ e3
  let e4 := if (99 : ℚ) / 100 < e3.getD p 0 then e3.set p (-1) else e3
  let mtch : Option ℕ := if (99 : ℚ) / 100 < e3.getD p 0 then some p else none
  let imgNav : ℕ × Option ℕ :=
    match mtch with
    | none => (s_iid, nav)
    | some q => if nav = some q then (s_iid, nav) else (d_iid, some q)
  { matched := mtch
    image := imgNav.1
    confidence := max 0 (e4.getD (cps.getD imgNav.1 0) 0)
    destination := dest
    evidence := e4
    nav_point := imgNav.2 }

/-- The state of `RouteMemory`: `none` fields model the Python `None`s of a
closed memory. `V` is the (opaque) type of destination payload vectors. -/
structure RouteMemory (V : Type) where
  num_points : ℕ
  code_points : Option (List ℕ)
  code_book : Option (List (List ℚ))
  keys : Option (List (List ℚ))
  values : Option (List V)
  evidence : Option (List ℚ)
  navigation_point : Option ℕ

/-- `RouteMemory.reset(n_points, code_points, coordinates, keys, values)`:
replaces the whole state, zeroes the evidence when `n_points ≥ 1`, clears
the confirmed point; total, returns only the new state. -/
def RouteMemory.reset {V : Type} (n : ℕ) (cps : Option (List ℕ))
    (cb : Option (List (List ℚ))) (ks : Option (List (List ℚ)))
    (vs : Option (List V)) : RouteMemory V :=
  { num_points := n
    code_points := cps
    code_book := cb
    keys := ks
    values := vs
    evidence := if n < 1 then none else some (List.replicate n 0)
    navigation_point := none }

/-- `RouteMemory.is_open()`: the code book is not `None`. -/
def RouteMemory.is_open {V : Type} (m : RouteMemory V) : Bool := m.code_book.isSome

/-- `RouteMemory.match_d1`: runs `matchStep` on the stored state and commits
the mutated evidence and confirmed point. A missing field (a Python `None`
dereference, i.e. a crash) is `none`. -/
def RouteMemory.match_d1 {V : Type} (m : RouteMemory V)
    (features selections : List ℚ) : Option (MatchResult V × RouteMemory V) :=
  match m.code_points, m.code_book, m.values, m.evidence with
  | some cps, some cb, some vs, some ev =>
    let r := matchStep m.num_points cps cb vs ev m.navigation_point features selections
    some (r, { m with evidence := some r.evidence, navigation_point := r.nav_point })
  | _, _, _, _ => none

/-- `RouteMemory.match` delegates to `match_d1` as in the source. -/
def RouteMemory.match {V : Type} (m : RouteMemory V)
    (features selections : List ℚ) : Option (MatchResult V × RouteMemory V) :=
  m.match_d1 features selections

/-- The Navigator state that `forward` reads and writes: the command carry
(`_gumbel`), the destination carry (`_destination`), the route memory, and
whether the route store is open. `C` is the maneuver-command type. -/
structure NavState (V C : Type) where
  gumbel : Option C
  destination : Option V
  memory : RouteMemory V
  storeOpen : Bool

/-- One tick of `Navigator.forward` after the perception-network call.
Inputs that the source obtains from its collaborators are arguments here:
`lockAcquired` is the outcome of the single non-blocking
`self._lock.acquire(False)` attempt, `mIntent` abstracts
`maneuver_intention` (repository code outside the matching core),
`gumbel_out` is this tick's network gumbel sample, `features` is the
coordinate embedding and `selections` the softmax attention vector.
Returns `(nav_point_id, nav_image_id, nav_distance, command)` and the new
Navigator state. -/
def Navigator.forward {V C I : Type} (st : NavState V C) (lockAcquired : Bool)
    (intention : I) (mIntent : I → C) (gumbel_out : C)
    (features selections : List ℚ) :
    (Option ℕ × Option ℕ × Option ℚ × C) × NavState V C :=
  let command : C :=
    match st.gumbel with
    | none => mIntent intention
    | some g => g
  let matched : Option (MatchResult V × RouteMemory V) :=
    if lockAcquired && st.storeOpen && st.memory.is_open then
      RouteMemory.match st.memory features selections
    else none
  match matched with
  | some (r, m2) =>
    ((r.matched, some r.image, some r.confidence, command),
      { gumbel := if r.destination.isNone then none else some gumbel_out
        destination := r.destination
        memory := m2
        storeOpen := st.storeOpen })
  | none =>
    ((none, none, none, command),
      { gumbel := none
        destination := none
        memory := st.memory
        storeOpen := st.storeOpen })

/-- The published `navigation_distance` of `TFRunner.forward`:
`float(1 if nav_distance is None else nav_distance)`. -/
def navigationDistanceOut (d : Option ℚ) : ℚ :=
  match d with
  | none => 1
  | some x => x

/-- One evidence tick of `match_d1` for a single-image corpus with the one
waypoint id 0, with the outcomes of the three outlier tests abstracted into
`passes` (each passing test contributes one `+0.1` through its
fancy-indexed addition) and the distance/selection product
`d_prob * s_prob * 1.1` abstracted into `bonus`, in the order of the
source: outlier additions, decay `×0.9`, clip to `[-1, 0.30]`, unclipped
bonus, then the match decision at threshold `0.99` with reset to `-1`. -/
def tickD1 (passes : ℕ) (bonus : ℚ) (e : ℚ) : ℚ × Option ℕ :=
  let e3 := clipQ ((e + (passes : ℚ) * (1 / 10)) * (9 / 10)) + bonus
  (if (99 : ℚ) / 100 < e3 then -1 else e3,
   if (99 : ℚ) / 100 < e3 then some 0 else none)

/-- The evidence value after `k` ticks of the spec's Scenario B (one passing
outlier test per tick, `d_prob = s_prob = 1/2`, so `bonus = 11/40`),
starting from the fresh evidence 0. -/
def scenarioBEvidence : ℕ → ℚ
  | 0 => 0
  | k + 1 => (tickD1 1 (11 / 40) (scenarioBEvidence k)).1

/-! ### Basic lemmas about the list helpers -/

lemma getD_mem (l : List ℚ) (j : ℕ) (hj : j < l.length) : l.getD j 0 ∈ l := by
  rw [List.getD_eq_getElem _ _ hj]
  exact List.getElem_mem hj

lemma getD_set_ne (l : List ℚ) (i j : ℕ) (v : ℚ) (hne : j ≠ i) :
    (l.set i v).getD j 0 = l.getD j 0 := by
  by_cases hj : j < l.length
  · rw [List.getD_eq_getElem _ _ (by simpa), List.getD_eq_getElem _ _ hj]
    exact List.getElem_set_ne (Ne.symm hne) _
  · rw [List.getD_eq_default _ _ (by simp; omega), List.getD_eq_default _ _ (by omega)]

lemma getD_set_self_of_lt (l : List ℚ) (i : ℕ) (v : ℚ) (h : i < l.length) :
    (l.set i v).getD i 0 = v := by
  rw [List.getD_eq_getElem _ _ (by simpa), List.getElem_set_self]

lemma length_bumpAll (idxs : List ℕ) (v : ℚ) :
    ∀ (ev : List ℚ) (i : ℕ), (bumpAll idxs v i ev).length = ev.length := by
  intro ev
  induction ev with
  | nil => intro i; rfl
  | cons e rest ih => intro i; simp [bumpAll, ih]

lemma length_fancyAdd (ev : List ℚ) (idxs : List ℕ) (v : ℚ) :
    (fancyAdd ev idxs v).length = ev.length := length_bumpAll idxs v ev 0

lemma getD_bumpAll (idxs : List ℕ) (v : ℚ) :
    ∀ (ev : List ℚ) (i j : ℕ), j < ev.length →
      (bumpAll idxs v i ev).getD j 0 = ev.getD j 0 + (if (i + j) ∈ idxs then v else 0) := by
  intro ev
  induction ev with
  | nil => intro i j h; simp at h
  | cons e rest ih =>
    intro i j h
    cases j with
    | zero =>
      simp only [bumpAll, List.getD_cons_zero, Nat.add_zero]
      split <;> simp
    | succ k =>
      simp only [bumpAll, List.getD_cons_succ]
      rw [ih (i + 1) k (by simpa using Nat.lt_of_succ_lt_succ h)]
      have : i + 1 + k = i + (k + 1) := by omega
      rw [this]

lemma getD_fancyAdd (ev : List ℚ) (idxs : List ℕ) (v : ℚ) (j : ℕ) (h : j < ev.length) :
    (fancyAdd ev idxs v).getD j 0 = ev.getD j 0 + (if j ∈ idxs then v else 0) := by
  simpa using getD_bumpAll idxs v ev 0 j h

lemma length_evidenceAfterOutliers (ev : List ℚ) (cps : List ℕ) (ds : List ℚ) :
    (evidenceAfterOutliers ev cps ds).length = ev.length := by
  simp [evidenceAfterOutliers, length_fancyAdd]

lemma length_decayClip (ev : List ℚ) : (decayClip ev).length = ev.length := by
  simp [decayClip]

lemma getD_decayClip (ev : List ℚ) (j : ℕ) (h : j < ev.length) :
    (decayClip ev).getD j 0 = clipQ (ev.getD j 0 * (9 / 10)) := by
  rw [List.getD_eq_getElem _ _ (by simpa [length_decayClip]), List.getD_eq_getElem _ _ h]
  simp [decayClip]

lemma clipQ_bounds (x : ℚ) : -1 ≤ clipQ x ∧ clipQ x ≤ 3 / 10 := by
  unfold clipQ
  constructor
  · exact le_min (le_trans (by norm_num) (le_max_right x (-1))) (by norm_num)
  · exact min_le_right _ _

lemma length_preDecisionEvidence (cps : List ℕ) (cb : List (List ℚ))
    (ev : List ℚ) (features selections : List ℚ) :
    (preDecisionEvidence cps cb ev features selections).length = ev.length := by
  simp [preDecisionEvidence, List.length_set, length_decayClip, length_evidenceAfterOutliers]

/-! ### The argmax scan: position and value specification -/

lemma amaxAux_spec : ∀ (l : List ℚ) (best : ℕ × ℚ) (i : ℕ),
    (amaxAux l best i = best ∨
      ∃ j, j < l.length ∧ amaxAux l best i = (i + j, l.getD j 0)) ∧
    best.2 ≤ (amaxAux l best i).2 ∧ ∀ x ∈ l, x ≤ (amaxAux l best i).2 := by
  intro l
  induction l with
  | nil => intro best i; exact ⟨Or.inl rfl, le_refl _, by simp⟩
  | cons x rest ih =>
    intro best i
    have hx : amaxAux (x :: rest) best i
        = amaxAux rest (if best.2 < x then (i, x) else best) (i + 1) := rfl
    obtain ⟨hpos, hval, hall⟩ := ih (if best.2 < x then (i, x) else best) (i + 1)
    have hble : best.2 ≤ (if best.2 < x then (i, x) else best).2 := by
      split
      · exact le_of_lt (by assumption)
      · exact le_refl _
    have hxle : x ≤ (if best.2 < x then (i, x) else best).2 := by
      split
      · exact le_refl _
      · exact le_of_not_lt (by assumption)
    refine ⟨?_, ?_, ?_⟩
    · rw [hx]
      rcases hpos with heq | ⟨j, hj, heq⟩
      · by_cases hlt : best.2 < x
        · right
          refine ⟨0, by simp, ?_⟩
          rw [heq, if_pos hlt]
          simp
        · left
          rw [heq, if_neg hlt]
      · right
        refine ⟨j + 1, by simpa using Nat.succ_lt_succ hj, ?_⟩
        rw [heq]
        simp only [Prod.mk.injEq, List.getD_cons_succ]
        exact ⟨by omega, trivial⟩
    · rw [hx]; exact le_trans hble hval
    · intro y hy
      rw [hx]
      rcases List.mem_cons.mp hy with rfl | hmem
      · exact le_trans hxle hval
      · exact hall y hmem

lemma argmaxQ_spec (xs : List ℚ) (h : xs ≠ []) :
    argmaxQ xs < xs.length ∧
    ∀ j, j < xs.length → xs.getD j 0 ≤ xs.getD (argmaxQ xs) 0 := by
  match xs, h with
  | x :: rest, _ =>
    obtain ⟨hpos, hval, hall⟩ := amaxAux_spec rest (0, x) 1
    have hres : argmaxQ (x :: rest) < (x :: rest).length ∧
        (x :: rest).getD (argmaxQ (x :: rest)) 0 = (amaxAux rest (0, x) 1).2 := by
      rcases hpos with heq | ⟨j, hj, heq⟩
      · constructor
        · show (amaxAux rest (0, x) 1).1 < _
          rw [heq]
          simp
        · show (x :: rest).getD (amaxAux rest (0, x) 1).1 0 = _
          rw [heq]
          simp
      · constructor
        · show (amaxAux rest (0, x) 1).1 < _
          rw [heq]
          simp
          omega
        · show (x :: rest).getD (amaxAux rest (0, x) 1).1 0 = _
          rw [heq]
          have h1j : 1 + j = j + 1 := by omega
          simp only [h1j, List.getD_cons_succ]
    refine ⟨hres.1, ?_⟩
    intro j hj
    rw [hres.2]
    cases j with
    | zero => simpa using hval
    | succ k =>
      rw [List.getD_cons_succ]
      exact hall _ (getD_mem rest k (by simpa using Nat.lt_of_succ_lt_succ hj))

/-! ### Destination-index lemmas -/

lemma zipWith_mask_getD (ms : List Bool) (selections : List ℚ) (j : ℕ)
    (hj : j < (List.zipWith (fun (b : Bool) s => if b then s else 0) ms selections).length) :
    (List.zipWith (fun (b : Bool) s => if b then s else 0) ms selections).getD j 0
      = if ms.getD j false then selections.getD j 0 else 0 := by
  have hjm : j < ms.length := by simp at hj; omega
  have hjs : j < selections.length := by simp at hj; omega
  rw [List.getD_eq_getElem _ _ hj, List.getElem_zipWith,
    List.getD_eq_getElem _ _ hjm, List.getD_eq_getElem _ _ hjs]

lemma destIndex_lt (num_points : ℕ) (cps : List ℕ) (nav : Option ℕ)
    (selections : List ℚ) (hlen : selections.length = cps.length) (hne : cps ≠ []) :
    destIndex num_points cps nav selections < cps.length := by
  have hpos : 0 < cps.length := List.length_pos.mpr hne
  cases nav with
  | none =>
    have hzlen : (List.zipWith (fun (b : Bool) s => if b then s else 0)
        (List.replicate cps.length true) selections).length = cps.length := by
      simp [hlen]
    have := (argmaxQ_spec _ (by rw [← List.length_pos, hzlen]; exact hpos)).1
    rw [hzlen] at this
    exact this
  | some c =>
    have hzlen : (List.zipWith (fun (b : Bool) s => if b then s else 0)
        (cps.map (fun w => decide (w = (c + 1) % num_points))) selections).length
          = cps.length := by
      simp [hlen]
    have := (argmaxQ_spec _ (by rw [← List.length_pos, hzlen]; exact hpos)).1
    rw [hzlen] at this
    exact this

lemma destIndex_none_spec (num_points : ℕ) (cps : List ℕ) (selections : List ℚ)
    (hlen : selections.length = cps.length) (hne : cps ≠ []) :
    ∀ j, j < cps.length →
      selections.getD j 0 ≤ selections.getD (destIndex num_points cps none selections) 0 := by
  intro j hj
  have hzlen : (List.zipWith (fun (b : Bool) s => if b then s else 0)
      (List.replicate cps.length true) selections).length = cps.length := by
    simp [hlen]
  have hzget : ∀ k, k < cps.length →
      (List.zipWith (fun (b : Bool) s => if b then s else 0)
        (List.replicate cps.length true) selections).getD k 0 = selections.getD k 0 := by
    intro k hk
    rw [zipWith_mask_getD _ _ _ (by rw [hzlen]; exact hk)]
    rw [List.getD_eq_getElem _ _ (by simpa using hk)]
    simp
  have hd := destIndex_lt num_points cps none selections hlen hne
  have hmax := (argmaxQ_spec _
    (by rw [← List.length_pos, hzlen]; exact List.length_pos.mpr hne)).2 j
    (by rw [hzlen]; exact hj)
  rw [hzget j hj] at hmax
  rw [hzget _ (by exact hd)] at hmax
  exact hmax

lemma destIndex_some_spec (num_points : ℕ) (cps : List ℕ) (selections : List ℚ) (c : ℕ)
    (hlen : selections.length = cps.length)
    (hpos : ∀ x ∈ selections, 0 < x)
    (hex : ∃ i, i < cps.length ∧ cps.getD i 0 = (c + 1) % num_points) :
    cps.getD (destIndex num_points cps (some c) selections) 0 = (c + 1) % num_points ∧
    ∀ j, j < cps.length → cps.getD j 0 = (c + 1) % num_points →
      selections.getD j 0 ≤ selections.getD (destIndex num_points cps (some c) selections) 0 := by
  obtain ⟨i, hi, hit⟩ := hex
  have hne : cps ≠ [] := by
    intro hcontra
    rw [hcontra] at hi
    simp at hi
  have hzlen : (List.zipWith (fun (b : Bool) s => if b then s else 0)
      (cps.map (fun w => decide (w = (c + 1) % num_points))) selections).length
        = cps.length := by
    simp [hlen]
  have hzget : ∀ k, k < cps.length →
      (List.zipWith (fun (b : Bool) s => if b then s else 0)
        (cps.map (fun w => decide (w = (c + 1) % num_points))) selections).getD k 0
      = if cps.getD k 0 = (c + 1) % num_points then selections.getD k 0 else 0 := by
    intro k hk
    rw [zipWith_mask_getD _ _ _ (by rw [hzlen]; exact hk)]
    rw [List.getD_eq_getElem (cps.map (fun w => decide (w = (c + 1) % num_points))) false
      (by simpa using hk)]
    rw [List.getElem_map, List.getD_eq_getElem _ _ hk]
    simp
  have hd := destIndex_lt num_points cps (some c) selections hlen hne
  have hmax := (argmaxQ_spec _
    (by rw [← List.length_pos, hzlen]; exact List.length_pos.mpr hne)).2
  have hdi : selections.getD i 0
      ≤ (List.zipWith (fun (b : Bool) s => if b then s else 0)
          (cps.map (fun w => decide (w = (c + 1) % num_points))) selections).getD
            (destIndex num_points cps (some c) selections) 0 := by
    have := hmax i (by rw [hzlen]; exact hi)
    rw [hzget i hi, if_pos hit] at this
    exact this
  have hselpos : 0 < selections.getD i 0 :=
    hpos _ (getD_mem selections i (by rw [hlen]; exact hi))
  have hdt : cps.getD (destIndex num_points cps (some c) selections) 0
      = (c + 1) % num_points := by
    by_contra hcontra
    rw [hzget _ hd, if_neg hcontra] at hdi
    exact absurd (lt_of_lt_of_le hselpos hdi) (lt_irrefl 0)
  refine ⟨hdt, ?_⟩
  intro j hj hjt
  have hthis := hmax j (by rw [hzlen]; exact hj)
  rw [hzget j hj, if_pos hjt] at hthis
  have h3 := hzget _ hd
  rw [if_pos hdt] at h3
  exact le_trans hthis (le_of_eq h3)

/-! ### Projection equations of `matchStep` -/

lemma matchStep_matched_eq (num_points : ℕ) (cps : List ℕ) (cb : List (List ℚ))
    {V : Type} (vs : List V) (ev : List ℚ) (nav : Option ℕ)
    (features selections : List ℚ) :
    (matchStep num_points cps cb vs ev nav features selections).matched
      = if (99 : ℚ) / 100 < (preDecisionEvidence cps cb ev features selections).getD
          (argmaxQ (preDecisionEvidence cps cb ev features selections)) 0
        then some (argmaxQ (preDecisionEvidence cps cb ev features selections))
        else none := rfl

lemma matchStep_evidence_eq (num_points : ℕ) (cps : List ℕ) (cb : List (List ℚ))
    {V : Type} (vs : List V) (ev : List ℚ) (nav : Option ℕ)
    (features selections : List ℚ) :
    (matchStep num_points cps cb vs ev nav features selections).evidence
      = if (99 : ℚ) / 100 < (preDecisionEvidence cps cb ev features selections).getD
          (argmaxQ (preDecisionEvidence cps cb ev features selections)) 0
        then (preDecisionEvidence cps cb ev features selections).set
          (argmaxQ (preDecisionEvidence cps cb ev features selections)) (-1)
        else preDecisionEvidence cps cb ev features selections := rfl

lemma matchStep_destination_eq (num_points : ℕ) (cps : List ℕ) (cb : List (List ℚ))
    {V : Type} (vs : List V) (ev : List ℚ) (nav : Option ℕ)
    (features selections : List ℚ) :
    (matchStep num_points cps cb vs ev nav features selections).destination
      = vs.get? (destIndex num_points cps nav selections) := rfl

/-! ### Scenario B (claim C1) -/

lemma tickD1_start : tickD1 1 (11 / 40) 0 = (73 / 200, none) := by
  norm_num [tickD1, clipQ]

lemma tickD1_from_one : tickD1 1 (11 / 40) (73 / 200) = (23 / 40, none) := by
  norm_num [tickD1, clipQ]

lemma tickD1_steady : tickD1 1 (11 / 40) (23 / 40) = (23 / 40, none) := by
  norm_num [tickD1, clipQ]

lemma scenarioBEvidence_one : scenarioBEvidence 1 = 73 / 200 := by
  show (tickD1 1 (11 / 40) (scenarioBEvidence 0)).1 = 73 / 200
  show (tickD1 1 (11 / 40) 0).1 = 73 / 200
  rw [tickD1_start]

lemma scenarioBEvidence_two : scenarioBEvidence 2 = 23 / 40 := by
  show (tickD1 1 (11 / 40) (scenarioBEvidence 1)).1 = 23 / 40
  rw [scenarioBEvidence_one, tickD1_from_one]

lemma scenarioB_steady : ∀ j : ℕ, scenarioBEvidence (j + 2) = 23 / 40 := by
  intro j
  induction j with
  | zero => exact scenarioBEvidence_two
  | succ k ih =>
    show (tickD1 1 (11 / 40) (scenarioBEvidence (k + 2))).1 = 23 / 40
    rw [ih, tickD1_steady]

/-- C1, counterexample: in the code's update order the evidence after tick 2
of Scenario B is not the claimed 0.7035, and the third tick produces no
match of waypoint 0. -/
theorem scenarioB_tick2_differs :
    scenarioBEvidence 2 ≠ 7035 / 10000 ∧
    (tickD1 1 (11 / 40) (scenarioBEvidence 2)).2 ≠ some 0 := by
  constructor
  · rw [scenarioBEvidence_two]
    norm_num
  · rw [scenarioBEvidence_two, tickD1_steady]
    simp

/-- C1, amended: for the single-image Scenario B corpus (one passing outlier
test per tick, `d_prob = s_prob = 0.5`), the code's evidence trace is 0.365
after tick 1 with no match, 0.575 after tick 2 (the decay-and-clip step caps
the evidence at 0.30 before the 0.275 bonus), and it stays at 0.575 with no
match on every later tick, so `match` never reports waypoint 0. -/
theorem scenarioB_trace_correct :
    scenarioBEvidence 1 = 73 / 200 ∧ (tickD1 1 (11 / 40) (scenarioBEvidence 0)).2 = none ∧
    scenarioBEvidence 2 = 23 / 40 ∧ (tickD1 1 (11 / 40) (scenarioBEvidence 1)).2 = none ∧
    ∀ k, 2 ≤ k → scenarioBEvidence k = 23 / 40 ∧
      (tickD1 1 (11 / 40) (scenarioBEvidence (k - 1))).2 = none := by
  refine ⟨scenarioBEvidence_one, ?_, scenarioBEvidence_two, ?_, ?_⟩
  · show (tickD1 1 (11 / 40) 0).2 = none
    rw [tickD1_start]
  · rw [scenarioBEvidence_one, tickD1_from_one]
  · intro k hk
    obtain ⟨j, rfl⟩ : ∃ j, k = j + 2 := ⟨k - 2, by omega⟩
    refine ⟨scenarioB_steady j, ?_⟩
    have hj1 : j + 2 - 1 = j + 1 := by omega
    rw [hj1]
    cases j with
    | zero => rw [scenarioBEvidence_one, tickD1_from_one]
    | succ i =>
      show (tickD1 1 (11 / 40) (scenarioBEvidence (i + 2))).2 = none
      rw [scenarioB_steady i, tickD1_steady]

/-- C1, witness: the amended trace at the third tick. -/
theorem scenarioB_trace_correct_witness :
    scenarioBEvidence 3 = 23 / 40 ∧ (tickD1 1 (11 / 40) (scenarioBEvidence 2)).2 = none :=
  scenarioB_trace_correct.2.2.2.2 3 (by norm_num)

/-! ### Outlier-evidence accumulation (claim C2) -/

/-- C2, counterexample: with corpus distances `[0, 0, 10]` and waypoint ids
`[0, 0, 1]`, both images of waypoint 0 pass the first outlier test (the
selected index list is `[0, 0, 1]`) and no image passes the other two tests,
yet waypoint 0's evidence gains only +0.1, not the +0.2 the claim's
per-image accumulation demands. -/
theorem outlier_additions_counterexample :
    selectIdx [0, 0, 1] (mask1 ([0, 0, 10] : List ℚ)) = [0, 0, 1] ∧
    selectIdx [0, 0, 1] (mask2 ([0, 0, 10] : List ℚ)) = [] ∧
    selectIdx [0, 0, 1] (mask3 ([0, 0, 10] : List ℚ)) = [] ∧
    (evidenceAfterOutliers [0, 0] [0, 0, 1] [0, 0, 10]).getD 0 0 = 1 / 10 := by
  refine ⟨?_, ?_, ?_, ?_⟩ <;>
    norm_num [selectIdx, mask1, mask2, mask3, outlierStats, meanQ, varQ, madQ, medianQ,
      percentileQ, sortQ, floorNatQ, ltSqrtQ, evidenceAfterOutliers, fancyAdd, bumpAll,
      List.insertionSort, List.orderedInsert, List.filterMap_cons, List.filterMap_nil]

/-- C2, amended: in every match call each of the three outlier tests adds
exactly one +0.1 to every waypoint id owned by at least one corpus image
passing that test — several passing images with the same waypoint id yield a
single +0.1 per test (numpy fancy-indexed in-place addition increments each
distinct index once) — and the additions of the three tests accumulate. -/
theorem outlier_unique_per_test (ev : List ℚ) (cps : List ℕ) (ds : List ℚ)
    (w : ℕ) (hw : w < ev.length) :
    (evidenceAfterOutliers ev cps ds).getD w 0 =
      ev.getD w 0 + (if w ∈ selectIdx cps (mask1 ds) then (1 : ℚ) / 10 else 0)
        + (if w ∈ selectIdx cps (mask2 ds) then (1 : ℚ) / 10 else 0)
        + (if w ∈ selectIdx cps (mask3 ds) then (1 : ℚ) / 10 else 0) := by
  unfold evidenceAfterOutliers
  rw [getD_fancyAdd _ _ _ _ (by rw [length_fancyAdd, length_fancyAdd]; exact hw)]
  rw [getD_fancyAdd _ _ _ _ (by rw [length_fancyAdd]; exact hw)]
  rw [getD_fancyAdd _ _ _ _ hw]

/-- C2, witness: the amended addition rule at the counterexample input. -/
theorem outlier_unique_per_test_witness :
    (evidenceAfterOutliers [0, 0] [0, 0, 1] [0, 0, 10]).getD 0 0 =
      ([(0 : ℚ), 0]).getD 0 0
        + (if 0 ∈ selectIdx [0, 0, 1] (mask1 ([0, 0, 10] : List ℚ)) then (1 : ℚ) / 10 else 0)
        + (if 0 ∈ selectIdx [0, 0, 1] (mask2 ([0, 0, 10] : List ℚ)) then (1 : ℚ) / 10 else 0)
        + (if 0 ∈ selectIdx [0, 0, 1] (mask3 ([0, 0, 10] : List ℚ)) then (1 : ℚ) / 10 else 0) :=
  outlier_unique_per_test [0, 0] [0, 0, 1] [0, 0, 10] 0 (by norm_num)

/-! ### `reset` and `is_open` (claim C8) -/

/-- C8, counterexample: `reset` called with `n = 0` but an explicitly empty
coordinates array stores an empty corpus and still reports the memory open,
so `is_open` is not equivalent to corpus non-emptiness over all argument
sequences. -/
theorem is_open_empty_corpus_counterexample :
    (RouteMemory.reset (V := ℕ) 0 none (some []) none none).is_open = true ∧
    (RouteMemory.reset (V := ℕ) 0 none (some []) none none).code_book = some [] :=
  ⟨rfl, rfl⟩

/-- C8, amended: `is_open` is true iff a corpus array is stored at all (the
code book is not `None`), whatever its length; `reset` with `n = 0` and no
arrays leaves the memory closed; `reset` is total and returns nothing
beyond the replaced state. -/
theorem reset_is_open_spec :
    (∀ (V : Type) (n : ℕ) (cps : Option (List ℕ)) (cb : Option (List (List ℚ)))
        (ks : Option (List (List ℚ))) (vs : Option (List V)),
      (RouteMemory.reset n cps cb ks vs).is_open = cb.isSome) ∧
    (RouteMemory.reset (V := ℕ) 0 none none none none).is_open = false :=
  ⟨fun _ _ _ _ _ _ => rfl, rfl⟩

/-! ### Match decision (claims C4, C3, C10) -/

lemma ifMatch_matched_spec (E3 : List ℚ) (q : ℕ) :
    (if (99 : ℚ) / 100 < E3.getD (argmaxQ E3) 0 then some (argmaxQ E3) else none) = some q ↔
      (q = argmaxQ E3 ∧ (99 : ℚ) / 100 < E3.getD (argmaxQ E3) 0) := by
  by_cases hc : (99 : ℚ) / 100 < E3.getD (argmaxQ E3) 0
  · rw [if_pos hc]
    constructor
    · intro hq
      exact ⟨(Option.some.inj hq).symm, hc⟩
    · rintro ⟨rfl, _⟩
      rfl
  · rw [if_neg hc]
    constructor
    · intro hq
      cases hq
    · rintro ⟨_, hc2⟩
      exact absurd hc2 hc

/-- C4: `match` reports a waypoint `q` iff `q` is the argmax of the evidence
vector at the match-decision step and that evidence strictly exceeds 0.99;
whenever a waypoint is reported, its evidence in the returned state is
exactly -1. -/
theorem match_threshold_iff (num_points : ℕ) (cps : List ℕ) (cb : List (List ℚ))
    {V : Type} (vs : List V) (ev : List ℚ) (nav : Option ℕ)
    (features selections : List ℚ)
    (hne : preDecisionEvidence cps cb ev features selections ≠ []) :
    (∀ q, (matchStep num_points cps cb vs ev nav features selections).matched = some q ↔
      (q = argmaxQ (preDecisionEvidence cps cb ev features selections) ∧
        (99 : ℚ) / 100 < (preDecisionEvidence cps cb ev features selections).getD
          (argmaxQ (preDecisionEvidence cps cb ev features selections)) 0)) ∧
    (∀ q, (matchStep num_points cps cb vs ev nav features selections).matched = some q →
      (matchStep num_points cps cb vs ev nav features selections).evidence.getD q 0 = -1) := by
  constructor
  · intro q
    rw [matchStep_matched_eq]
    exact ifMatch_matched_spec _ q
  · intro q hq
    rw [matchStep_matched_eq, ifMatch_matched_spec] at hq
    obtain ⟨rfl, hc⟩ := hq
    rw [matchStep_evidence_eq, if_pos hc]
    exact getD_set_self_of_lt _ _ _ (argmaxQ_spec _ hne).1

/-- C4, witness: a single-image corpus whose image is very close to the
probe feature fires a match on the first call and leaves evidence -1. -/
theorem match_threshold_iff_witness :
    (matchStep 1 [0] [[1]] ([(0 : ℚ)]) [0] none [2] [1]).evidence.getD 0 0 = -1 :=
  (match_threshold_iff 1 [0] [[1]] ([(0 : ℚ)]) [0] none [2] [1]
    (by norm_num [preDecisionEvidence, decayClip, evidenceAfterOutliers, distancesQ, dotQ,
      mask1, mask2, mask3, outlierStats, meanQ, varQ, madQ, medianQ, percentileQ, sortQ,
      floorNatQ, ltSqrtQ, selectIdx, fancyAdd, bumpAll, List.insertionSort,
      List.orderedInsert, List.filterMap_cons, List.filterMap_nil])).2 0
    (by norm_num [matchStep_matched_eq, ifMatch_matched_spec, preDecisionEvidence, decayClip,
      evidenceAfterOutliers, distancesQ, dotQ, mask1, mask2, mask3, outlierStats, meanQ,
      varQ, madQ, medianQ, percentileQ, sortQ, floorNatQ, ltSqrtQ, selectIdx, fancyAdd,
      bumpAll, argmaxQ, amaxAux, argminQ, aminAux, clipQ, List.getD, List.insertionSort,
      List.orderedInsert, List.filterMap_cons, List.filterMap_nil])

lemma getD_preDecisionEvidence_ne (cps : List ℕ) (cb : List (List ℚ))
    (ev : List ℚ) (features selections : List ℚ) (w : ℕ)
    (hw : w < ev.length)
    (hb : w ≠ cps.getD (argminQ (distancesQ cb features)) 0) :
    (preDecisionEvidence cps cb ev features selections).getD w 0
      = clipQ ((evidenceAfterOutliers ev cps (distancesQ cb features)).getD w 0 * (9 / 10)) := by
  unfold preDecisionEvidence
  rw [getD_set_ne _ _ _ _ hb]
  exact getD_decayClip _ _ (by rw [length_evidenceAfterOutliers]; exact hw)

/-- C3: after a completed match call every evidence entry other than the one
that received the unclipped bonus (the waypoint of the closest image) lies
in `[-1, 0.30]`: it is either a decayed-and-clipped value or the `-1` left
by a fired match. -/
theorem evidence_bounds_after_match (num_points : ℕ) (cps : List ℕ) (cb : List (List ℚ))
    {V : Type} (vs : List V) (ev : List ℚ) (nav : Option ℕ)
    (features selections : List ℚ) (w : ℕ)
    (hw : w < ev.length)
    (hb : w ≠ cps.getD (argminQ (distancesQ cb features)) 0) :
    -1 ≤ (matchStep num_points cps cb vs ev nav features selections).evidence.getD w 0 ∧
    (matchStep num_points cps cb vs ev nav features selections).evidence.getD w 0 ≤ 3 / 10 := by
  have hpre : -1 ≤ (preDecisionEvidence cps cb ev features selections).getD w 0 ∧
      (preDecisionEvidence cps cb ev features selections).getD w 0 ≤ 3 / 10 := by
    rw [getD_preDecisionEvidence_ne cps cb ev features selections w hw hb]
    exact clipQ_bounds _
  rw [matchStep_evidence_eq]
  by_cases hc : (99 : ℚ) / 100 < (preDecisionEvidence cps cb ev features selections).getD
      (argmaxQ (preDecisionEvidence cps cb ev features selections)) 0
  · rw [if_pos hc]
    by_cases hwp : w = argmaxQ (preDecisionEvidence cps cb ev features selections)
    · have hlt : w < (preDecisionEvidence cps cb ev features selections).length := by
        rw [length_preDecisionEvidence]
        exact hw
      rw [hwp] at hlt ⊢
      rw [getD_set_self_of_lt _ _ _ hlt]
      norm_num
    · rw [getD_set_ne _ _ _ _ hwp]
      exact hpre
  · rw [if_neg hc]
    exact hpre

/-- C3, witness: a two-waypoint corpus where the second waypoint is not the
bonus target. -/
theorem evidence_bounds_after_match_witness :
    -1 ≤ (matchStep 2 [0, 1] [[1], [0]] ([(0 : ℚ)]) [0, 0] none [1] [1]).evidence.getD 1 0 ∧
    (matchStep 2 [0, 1] [[1], [0]] ([(0 : ℚ)]) [0, 0] none [1] [1]).evidence.getD 1 0 ≤ 3 / 10 :=
  evidence_bounds_after_match 2 [0, 1] [[1], [0]] ([(0 : ℚ)]) [0, 0] none [1] [1] 1
    (by norm_num)
    (by norm_num [distancesQ, dotQ, argminQ, aminAux, List.getD])

/-- C10: when a match call declares a new match (a waypoint different from
the previously confirmed one) and the display image's waypoint id equals the
matched waypoint, the returned confidence is exactly 0: the matched
waypoint's evidence was just reset to -1 and the confidence clamps at 0. -/
theorem new_match_confidence_zero (num_points : ℕ) (cps : List ℕ) (cb : List (List ℚ))
    {V : Type} (vs : List V) (ev : List ℚ) (nav : Option ℕ)
    (features selections : List ℚ) (q : ℕ)
    (hm : (matchStep num_points cps cb vs ev nav features selections).matched = some q)
    (hnew : nav ≠ some q)
    (hwp : cps.getD (argminQ (distancesQ cb features)) 0 = q)
    (hq : q < ev.length) :
    (matchStep num_points cps cb vs ev nav features selections).confidence = 0 := by
  rw [matchStep_matched_eq, ifMatch_matched_spec] at hm
  obtain ⟨hqe, hc⟩ := hm
  have hnav2 : ¬ nav = some (argmaxQ (preDecisionEvidence cps cb ev features selections)) := by
    rw [← hqe]
    exact hnew
  have hconf : (matchStep num_points cps cb vs ev nav features selections).confidence
      = max 0 (((preDecisionEvidence cps cb ev features selections).set
          (argmaxQ (preDecisionEvidence cps cb ev features selections)) (-1)).getD
            (cps.getD (argminQ (distancesQ cb features)) 0) 0) := by
    simp only [matchStep, if_pos hc, if_neg hnav2]
  rw [hconf, hwp, ← hqe]
  rw [getD_set_self_of_lt _ _ _ (by rw [length_preDecisionEvidence]; exact hq)]
  norm_num

/-- C10, witness: the single-image corpus instance fires a fresh match of
waypoint 0, the display image is the closest image with waypoint 0, and the
returned confidence is 0. -/
theorem new_match_confidence_zero_witness :
    (matchStep 1 [0] [[1]] ([(0 : ℚ)]) [0] none [2] [1]).confidence = 0 :=
  new_match_confidence_zero 1 [0] [[1]] ([(0 : ℚ)]) [0] none [2] [1] 0
    (by norm_num [matchStep_matched_eq, ifMatch_matched_spec, preDecisionEvidence, decayClip,
      evidenceAfterOutliers, distancesQ, dotQ, mask1, mask2, mask3, outlierStats, meanQ,
      varQ, madQ, medianQ, percentileQ, sortQ, floorNatQ, ltSqrtQ, selectIdx, fancyAdd,
      bumpAll, argmaxQ, amaxAux, argminQ, aminAux, clipQ, List.getD, List.insertionSort,
      List.orderedInsert, List.filterMap_cons, List.filterMap_nil])
    (by simp)
    (by norm_num [distancesQ, dotQ, argminQ, aminAux, List.getD])
    (by norm_num)

/-! ### Navigator `forward` (claims C5, C7) -/

/-- C5: `forward` makes a single non-blocking lock attempt (the model takes
its outcome as an input); whenever the lock is unavailable or the memory is
not open, the returned waypoint id, display image index and confidence and
the stored destination are all absent, the memory (hence the evidence) is
untouched, and the published `navigation_distance` defaults to 1. -/
theorem forward_contention_defaults {V C I : Type} (st : NavState V C) (lock : Bool)
    (intention : I) (mIntent : I → C) (g : C) (features selections : List ℚ)
    (h : lock = false ∨ st.memory.is_open = false) :
    (Navigator.forward st lock intention mIntent g features selections).1.1 = none ∧
    (Navigator.forward st lock intention mIntent g features selections).1.2.1 = none ∧
    (Navigator.forward st lock intention mIntent g features selections).1.2.2.1 = none ∧
    ((Navigator.forward st lock intention mIntent g features selections).2).destination
      = none ∧
    ((Navigator.forward st lock intention mIntent g features selections).2).memory
      = st.memory ∧
    navigationDistanceOut
      ((Navigator.forward st lock intention mIntent g features selections).1.2.2.1) = 1 := by
  have hc : (lock && st.storeOpen && st.memory.is_open) = false := by
    rcases h with h | h <;> simp [h]
  simp [Navigator.forward, hc, navigationDistanceOut]

/-- C5, witness: a closed memory with the lock unavailable. -/
theorem forward_contention_defaults_witness :
    (Navigator.forward (⟨none, none, RouteMemory.reset 0 none none none none, true⟩
        : NavState ℕ ℕ) false (0 : ℕ) (fun i => i) 7 [] []).1.1 = none ∧
    (Navigator.forward (⟨none, none, RouteMemory.reset 0 none none none none, true⟩
        : NavState ℕ ℕ) false (0 : ℕ) (fun i => i) 7 [] []).1.2.1 = none ∧
    (Navigator.forward (⟨none, none, RouteMemory.reset 0 none none none none, true⟩
        : NavState ℕ ℕ) false (0 : ℕ) (fun i => i) 7 [] []).1.2.2.1 = none ∧
    ((Navigator.forward (⟨none, none, RouteMemory.reset 0 none none none none, true⟩
        : NavState ℕ ℕ) false (0 : ℕ) (fun i => i) 7 [] []).2).destination = none ∧
    ((Navigator.forward (⟨none, none, RouteMemory.reset 0 none none none none, true⟩
        : NavState ℕ ℕ) false (0 : ℕ) (fun i => i) 7 [] []).2).memory
      = RouteMemory.reset 0 none none none none ∧
    navigationDistanceOut
      ((Navigator.forward (⟨none, none, RouteMemory.reset 0 none none none none, true⟩
        : NavState ℕ ℕ) false (0 : ℕ) (fun i => i) 7 [] []).1.2.2.1) = 1 :=
  forward_contention_defaults
    (⟨none, none, RouteMemory.reset 0 none none none none, true⟩ : NavState ℕ ℕ)
    false (0 : ℕ) (fun i => i) 7 [] [] (Or.inl rfl)

/-- C7: the command fed to the network is derived from `intention` when the
command carry is absent and is the carried gumbel sample otherwise; after
matching, the new carry is cleared when the tick produced no destination and
is this tick's gumbel sample otherwise. -/
theorem forward_command_carry {V C I : Type} (st : NavState V C) (lock : Bool)
    (intention : I) (mIntent : I → C) (g : C) (features selections : List ℚ) :
    (Navigator.forward st lock intention mIntent g features selections).1.2.2.2 =
      (match st.gumbel with
        | none => mIntent intention
        | some g0 => g0) ∧
    ((Navigator.forward st lock intention mIntent g features selections).2).gumbel =
      (if ((Navigator.forward st lock intention mIntent g features selections).2
          ).destination.isNone
        then none else some g) := by
  unfold Navigator.forward
  cases hm : (if (lock && st.storeOpen && st.memory.is_open) = true
      then st.memory.match features selections else none) with
  | none => exact ⟨rfl, by simp⟩
  | some rm =>
    obtain ⟨r, m2⟩ := rm
    exact ⟨rfl, rfl⟩

/-! ### Destination selection (claims C6, C9) -/

/-- C6: with a confirmed waypoint `c` (and some image carrying the successor
id), the destination index is an image whose waypoint id is
`(c + 1) % num_points` and whose selection dominates every such image; with
no confirmed waypoint, it dominates the selections of all corpus images. In
both cases the returned destination is `values[s_idx]`. The positivity of
the selections holds for the softmax output the code feeds in. -/
theorem destination_selection_spec (num_points : ℕ) (cps : List ℕ) (cb : List (List ℚ))
    {V : Type} (vs : List V) (ev : List ℚ) (features selections : List ℚ)
    (hlen : selections.length = cps.length)
    (hpos : ∀ x ∈ selections, 0 < x) :
    (∀ c : ℕ, (∃ i, i < cps.length ∧ cps.getD i 0 = (c + 1) % num_points) →
      cps.getD (destIndex num_points cps (some c) selections) 0 = (c + 1) % num_points ∧
      (∀ j, j < cps.length → cps.getD j 0 = (c + 1) % num_points →
        selections.getD j 0
          ≤ selections.getD (destIndex num_points cps (some c) selections) 0) ∧
      (matchStep num_points cps cb vs ev (some c) features selections).destination
        = vs.get? (destIndex num_points cps (some c) selections)) ∧
    (cps ≠ [] →
      (∀ j, j < cps.length →
        selections.getD j 0 ≤ selections.getD (destIndex num_points cps none selections) 0) ∧
      (matchStep num_points cps cb vs ev none features selections).destination
        = vs.get? (destIndex num_points cps none selections)) := by
  constructor
  · intro c hex
    obtain ⟨h1, h2⟩ := destIndex_some_spec num_points cps selections c hlen hpos hex
    exact ⟨h1, h2, matchStep_destination_eq _ _ _ _ _ _ _ _⟩
  · intro hne
    exact ⟨destIndex_none_spec num_points cps selections hlen hne,
      matchStep_destination_eq _ _ _ _ _ _ _ _⟩

/-- C6, witness: with confirmed waypoint 0 in a two-waypoint corpus the
destination index lands on the image tagged `(0 + 1) % 2`. -/
theorem destination_selection_spec_witness :
    [0, 1].getD (destIndex 2 [0, 1] (some 0) [(1 : ℚ) / 2, 1 / 4]) 0 = (0 + 1) % 2 :=
  ((destination_selection_spec 2 [0, 1] [[1], [0]] ([3, 4] : List ℕ) [0, 0] [1]
      [(1 : ℚ) / 2, 1 / 4] (by norm_num)
      (by intro x hx
          fin_cases hx <;> norm_num)).1 0
    ⟨1, by norm_num, by norm_num [List.getD]⟩).1

/-- C9: on an open, well-formed memory the destination `match` returns is
never absent — it is `values[s_idx]` — and after a Navigator tick in which
matching ran (lock acquired, store and memory open), the destination carry
is non-`None`. -/
theorem match_destination_present (num_points : ℕ) (cps : List ℕ) (cb : List (List ℚ))
    {V C I : Type} (vs : List V) (ks : Option (List (List ℚ))) (ev : List ℚ)
    (nav : Option ℕ) (g0 : Option C) (d0 : Option V)
    (intention : I) (mIntent : I → C) (g : C) (features selections : List ℚ)
    (hlen : selections.length = cps.length)
    (hv : vs.length = cps.length)
    (hne : cps ≠ []) :
    (∃ v, (matchStep num_points cps cb vs ev nav features selections).destination = some v) ∧
    ((Navigator.forward
        (⟨g0, d0, ⟨num_points, some cps, some cb, ks, some vs, some ev, nav⟩, true⟩
          : NavState V C)
        true intention mIntent g features selections).2).destination.isSome = true := by
  have hd : destIndex num_points cps nav selections < vs.length := by
    rw [hv]
    exact destIndex_lt num_points cps nav selections hlen hne
  obtain ⟨v, hv2⟩ : ∃ v, vs.get? (destIndex num_points cps nav selections) = some v :=
    ⟨_, by rw [List.get?_eq_getElem?]; exact List.getElem?_eq_getElem hd⟩
  constructor
  · rw [matchStep_destination_eq]
    exact ⟨v, hv2⟩
  · have hfwd : ((Navigator.forward
        (⟨g0, d0, ⟨num_points, some cps, some cb, ks, some vs, some ev, nav⟩, true⟩
          : NavState V C)
        true intention mIntent g features selections).2).destination
      = vs.get? (destIndex num_points cps nav selections) := rfl
    rw [hfwd, hv2]
    rfl

/-- C9, witness: a concrete open single-image memory leaves a non-`None`
destination carry after a tick in which matching ran. -/
theorem match_destination_present_witness :
    ((Navigator.forward
        (⟨none, none, ⟨1, some [0], some [[1]], none, some [5], some [0], none⟩, true⟩
          : NavState ℕ ℕ)
        true (0 : ℕ) (fun i => i) 7 [2] [1]).2).destination.isSome = true :=
  (match_destination_present 1 [0] [[1]] ([5] : List ℕ) none [0] none none none
    (0 : ℕ) (fun i => i) 7 [2] [1] (by norm_num) (by norm_num) (by simp)).2
